import Mathlib

/-!
Verification of the x402 payment-demo core against its specification.

The definitions below are a shallow embedding of the TypeScript sources:

* `EvolveFacilitatorClient` (server/src/x402/evolve-facilitator.ts, the
  variant with calldata amount validation): `evictStale`, `verify`, `settle`
  over the `usedTxHashes` replay-guard map.
* `MetricsCollector` (simulator/src/metrics.ts): `registerAgent`,
  `recordRequest`, `getPoolMetrics`, `percentile`.
* The dashboard `EventEmitter` (server/src/events.ts): the bounded event
  log mutated by `emit` and the backlog snapshot sent by `addConnection`.
* The `Agent` nonce claim logic (simulator/src/agent.ts, `submitPayment`).

JavaScript `Map`s keyed by strings are embedded as association lists with
JS `Map` semantics: `set` updates the first matching key in place
(preserving insertion order) and appends when the key is absent.
Timestamps (`Date.now()` values) are embedded as `Int`; token amounts
(JS `BigInt`) as `Nat`.  Async RPC calls that may throw are embedded as
`Except Unit` valued oracles supplied as parameters.
-/

/-- JS `Map.get`: value of the first entry with the given key. -/
def mapGet {α β : Type} [DecidableEq α] : List (α × β) → α → Option β
  | [], _ => none
  | (a, b) :: rest, k => if a = k then some b else mapGet rest k

/-- JS `Map.set`: replace the first entry with the given key in place
(keeping its position), or append a new entry when the key is absent. -/
def mapSet {α β : Type} [DecidableEq α] : List (α × β) → α → β → List (α × β)
  | [], k, v => [(k, v)]
  | (a, b) :: rest, k, v =>
    if a = k then (k, v) :: rest else (a, b) :: mapSet rest k v

/-- JS `Map.has`. -/
def mapHas {α β : Type} [DecidableEq α] (m : List (α × β)) (k : α) : Bool :=
  (mapGet m k).isSome

/-! ## Facilitator (`EvolveFacilitatorClient`) -/

/-- `TX_HASH_TTL_MS = 3_600_000` (1 hour), evolve-facilitator.ts. -/
def TX_HASH_TTL_MS : Int := 3600000

/-- Transaction receipt as consumed by the facilitator:
`receipt.status` and `receipt.from` (named `fromAddr`, `from` is reserved). -/
structure Receipt where
  status : String
  fromAddr : String
deriving DecidableEq

/-- Transaction data as consumed by the facilitator: `tx.input` calldata. -/
structure TxData where
  input : String
deriving DecidableEq

/-- The ledger RPC oracle: `getTransactionReceipt` and `getTransaction`.
`Except.error` models a thrown RPC error, `Except.ok none` a null result. -/
structure Ledger where
  getTransactionReceipt : String → Except Unit (Option Receipt)
  getTransaction : String → Except Unit (Option TxData)

/-- `VerifyResponse` of `@x402/core`: `{ isValid, invalidReason?, payer? }`. -/
structure VerifyResponse where
  isValid : Bool
  invalidReason : Option String := none
  payer : Option String := none
deriving DecidableEq

/-- `SettleResponse` of `@x402/core`: `{ success, transaction, network, payer }`. -/
structure SettleResponse where
  success : Bool
  transaction : String
  network : String
  payer : String
deriving DecidableEq

/-- One hex digit, as recognised by `Number.parseInt(_, 16)`. -/
def hexDigitVal (c : Char) : Option Nat :=
  if 48 ≤ c.toNat ∧ c.toNat ≤ 57 then some (c.toNat - 48)
  else if 97 ≤ c.toNat ∧ c.toNat ≤ 102 then some (c.toNat - 87)
  else if 65 ≤ c.toNat ∧ c.toNat ≤ 70 then some (c.toNat - 55)
  else none

/-- `Number.parseInt(s, 16)` on a two-character slice, followed by a store
into a `Uint8Array`: the longest hex-digit prefix is parsed, and a leading
non-digit yields `NaN`, which the typed-array store coerces to `0`. -/
def parseHexByte (cs : List Char) : Nat :=
  match cs with
  | [] => 0
  | [c] => (hexDigitVal c).getD 0
  | c1 :: c2 :: _ =>
    match hexDigitVal c1 with
    | none => 0
    | some d1 =>
      match hexDigitVal c2 with
      | none => d1
      | some d2 => 16 * d1 + d2

/-- Amount decoding in `verify`: skip `0x`, the 4-byte selector and the
32-byte account id (74 characters total), read 16 bytes and fold them
little-endian (the source folds `acc << 8 | byte[i]` for `i = 15 .. 0`,
and each byte is below 256, so `|` is `+`). -/
def decodeTransferAmount (input : String) : Nat :=
  let amountHex := input.toList.drop 74
  let amountBytes := (List.range 16).map fun i => parseHexByte ((amountHex.drop (2 * i)).take 2)
  amountBytes.foldr (fun b acc => acc * 256 + b) 0

/-- `evictStale`: drop every replay-guard entry with `now - ts > TTL`. -/
def evictStale (now : Int) (used : List (String × Int)) : List (String × Int) :=
  used.filter fun p => !decide (now - p.2 > TX_HASH_TTL_MS)

/-- The pure branch structure of `verify` after eviction, in source order:
missing hash, replay check against `usedTxHashes`, receipt fetch, receipt
status, transaction fetch, calldata length, amount comparison.  A thrown
RPC call lands in the `catch` branch (`"Verification failed"`). -/
def verifyResult (ledger : Ledger) (used : List (String × Int))
    (txHash : String) (requiredAmount : Nat) : VerifyResponse :=
  if txHash = "" then
    { isValid := false, invalidReason := some "Missing transaction hash" }
  else if mapHas used txHash then
    { isValid := false, invalidReason := some "Transaction already used" }
  else
    match ledger.getTransactionReceipt txHash with
    | Except.error _ =>
      { isValid := false, invalidReason := some "Verification failed" }
    | Except.ok none =>
      { isValid := false, invalidReason := some "Transaction not found" }
    | Except.ok (some receipt) =>
      if receipt.status ≠ "success" then
        { isValid := false, invalidReason := some "Transaction failed" }
      else
        match ledger.getTransaction txHash with
        | Except.error _ =>
          { isValid := false, invalidReason := some "Verification failed" }
        | Except.ok none =>
          { isValid := false, invalidReason := some "Transaction data not found" }
        | Except.ok (some tx) =>
          if tx.input.length < 106 then
            { isValid := false,
              invalidReason := some "Transaction calldata too short for token transfer" }
          else
            let transferAmount := decodeTransferAmount tx.input
            if transferAmount < requiredAmount then
              { isValid := false,
                invalidReason := some ("Insufficient payment: got " ++ toString transferAmount
                  ++ ", need " ++ toString requiredAmount) }
            else
              { isValid := true, payer := some receipt.fromAddr }

/-- `EvolveFacilitatorClient.verify`: evict stale entries (the only
mutation of `usedTxHashes` this method performs), then compute the
response from the evicted map. -/
def verify (ledger : Ledger) (used : List (String × Int))
    (txHash : String) (requiredAmount : Nat) (now : Int) :
    List (String × Int) × VerifyResponse :=
  let used := evictStale now used
  (used, verifyResult ledger used txHash requiredAmount)

/-- `EvolveFacilitatorClient.settle`: unconditionally mark the hash used
(`usedTxHashes.set(txHash, Date.now())`), look the payer up from the
receipt with the hash itself as fallback, and report `success: true`. -/
def settle (ledger : Ledger) (used : List (String × Int))
    (txHash : String) (now : Int) (network : String) :
    List (String × Int) × SettleResponse :=
  let used := mapSet used txHash now
  let payer :=
    match ledger.getTransactionReceipt txHash with
    | Except.ok (some receipt) => receipt.fromAddr
    | _ => txHash
  (used, { success := true, transaction := txHash, network := network, payer := payer })

/-- One facilitator API call, with the wall-clock time it runs at. -/
inductive FacOp : Type
  | verifyOp (txHash : String) (requiredAmount : Nat) (now : Int)
  | settleOp (txHash : String) (now : Int)

/-- Wall-clock time of a facilitator call. -/
def FacOp.time : FacOp → Int
  | .verifyOp _ _ now => now
  | .settleOp _ now => now

/-- Effect of one facilitator call on the replay-guard map. -/
def facStep (ledger : Ledger) (network : String)
    (used : List (String × Int)) : FacOp → List (String × Int)
  | .verifyOp txHash req now => (verify ledger used txHash req now).1
  | .settleOp txHash now => (settle ledger used txHash now network).1

/-- A ledger on which every RPC call returns null. -/
def ledger0 : Ledger :=
  { getTransactionReceipt := fun _ => Except.ok none
    getTransaction := fun _ => Except.ok none }

/-- A ledger with a successful receipt and a 106-character zero-amount
token-transfer calldata for every hash. -/
def ledgerValid : Ledger :=
  { getTransactionReceipt := fun _ =>
      Except.ok (some { status := "success", fromAddr := "0xpayer" })
    getTransaction := fun _ =>
      Except.ok (some { input := String.mk ('0' :: 'x' :: List.replicate 104 '0') }) }

/-! ## Metrics (`MetricsCollector`, simulator variant) -/

/-- `TPS_WINDOW_MS = 1000`, metrics.ts. -/
def TPS_WINDOW_MS : Int := 1000

/-- Per-agent rollup stored in `agentMetrics`. -/
structure AgentMetrics where
  agentId : String
  address : String
  totalRequests : Nat
  successfulRequests : Nat
  failedRequests : Nat
  totalLatencyMs : Int
  totalPaymentLatencyMs : Int
  balance : Int
  lastRequestTime : Int
deriving DecidableEq

/-- `RequestResult` of simulator/src/types.ts (the fields the collector reads). -/
structure RequestResult where
  success : Bool
  agentId : String
  endpoint : String
  txHash : Option String := none
  latencyMs : Int
  paymentLatencyMs : Option Int := none
  error : Option String := none
  timestamp : Int
deriving DecidableEq

/-- `MetricsCollector` state. -/
structure MetricsCollector where
  agentMetrics : List (String × AgentMetrics)
  latencies : List Int
  recentRequests : List Int
  startTime : Int
deriving DecidableEq

/-- The collector before `start()`. -/
def emptyCollector : MetricsCollector :=
  { agentMetrics := [], latencies := [], recentRequests := [], startTime := 0 }

/-- `MetricsCollector.start`. -/
def MetricsCollector.startAt (m : MetricsCollector) (now : Int) : MetricsCollector :=
  { m with startTime := now, latencies := [], recentRequests := [] }

/-- `MetricsCollector.registerAgent`. -/
def registerAgent (m : MetricsCollector) (agentId address : String) : MetricsCollector :=
  { m with
    agentMetrics := mapSet m.agentMetrics agentId
      { agentId := agentId, address := address, totalRequests := 0,
        successfulRequests := 0, failedRequests := 0, totalLatencyMs := 0,
        totalPaymentLatencyMs := 0, balance := 0, lastRequestTime := 0 } }

/-- JS truthiness of the optional `paymentLatencyMs` field
(`if (result.paymentLatencyMs)`): present and non-zero. -/
def paymentLatencyTruthy : Option Int → Bool
  | none => false
  | some v => v ≠ 0

/-- `MetricsCollector.recordRequest`: an unknown `agentId` returns with no
change at all; otherwise the per-agent counters are updated and the
latency sample and timestamp are pushed (for every result, successful or
not), with the latency buffer trimmed to its newest 5000 samples once it
exceeds 10000. -/
def recordRequest (m : MetricsCollector) (r : RequestResult) : MetricsCollector :=
  match mapGet m.agentMetrics r.agentId with
  | none => m
  | some metrics =>
    let metrics :=
      { metrics with
        totalRequests := metrics.totalRequests + 1
        lastRequestTime := r.timestamp
        totalLatencyMs := metrics.totalLatencyMs + r.latencyMs
        totalPaymentLatencyMs := metrics.totalPaymentLatencyMs +
          (if paymentLatencyTruthy r.paymentLatencyMs then r.paymentLatencyMs.getD 0 else 0)
        successfulRequests := metrics.successfulRequests + (if r.success then 1 else 0)
        failedRequests := metrics.failedRequests + (if r.success then 0 else 1) }
    let latencies := m.latencies ++ [r.latencyMs]
    let latencies :=
      if latencies.length > 10000 then latencies.drop (latencies.length - 5000) else latencies
    { m with
      agentMetrics := mapSet m.agentMetrics r.agentId metrics
      latencies := latencies
      recentRequests := m.recentRequests ++ [r.timestamp] }

/-- `MetricsCollector.percentile` (identical to the dashboard helper):
`idx = ceil(p/100 * n) - 1`, result `sorted[max 0 idx]`.  The ceiling of
the exact rational `p * n / 100` is `(p * n + 99) / 100` in `Nat`. -/
def percentile (sorted : List Int) (p : Nat) : Int :=
  if sorted.length = 0 then 0
  else
    let idx : Int := ((p * sorted.length + 99) / 100 : Nat) - 1
    sorted.getD (max 0 idx).toNat 0

/-- `PoolMetrics` (the integer-valued fields; the floating-point
`avgLatencyMs` rounding is not modelled, no claim depends on it). -/
structure PoolMetrics where
  totalRequests : Nat
  successfulRequests : Nat
  failedRequests : Nat
  p50LatencyMs : Int
  p95LatencyMs : Int
  p99LatencyMs : Int
  currentTps : Nat
  agents : List AgentMetrics
  startTime : Int
  elapsedMs : Int
deriving DecidableEq

/-- `MetricsCollector.getPoolMetrics`: sums the per-agent counters, takes
percentiles over the ascending-sorted latency buffer, and reassigns
`recentRequests` to the timestamps with `t > now - TPS_WINDOW_MS`;
`currentTps` is their count (`length / (1000/1000)`, and the
`Math.round(x*10)/10` step is the identity on integer counts). -/
def getPoolMetrics (m : MetricsCollector) (now : Int) :
    MetricsCollector × PoolMetrics :=
  let agents := m.agentMetrics.map Prod.snd
  let totalRequests := (agents.map (fun a => a.totalRequests)).sum
  let successfulRequests := (agents.map (fun a => a.successfulRequests)).sum
  let failedRequests := (agents.map (fun a => a.failedRequests)).sum
  let sortedLatencies := m.latencies.mergeSort (fun a b => decide (a ≤ b))
  let windowStart := now - TPS_WINDOW_MS
  let recent := m.recentRequests.filter fun t => decide (windowStart < t)
  ({ m with recentRequests := recent },
   { totalRequests := totalRequests
     successfulRequests := successfulRequests
     failedRequests := failedRequests
     p50LatencyMs := percentile sortedLatencies 50
     p95LatencyMs := percentile sortedLatencies 95
     p99LatencyMs := percentile sortedLatencies 99
     currentTps := recent.length
     agents := agents
     startTime := m.startTime
     elapsedMs := now - m.startTime })

/-! ## Event bus (`EventEmitter`, server/src/events.ts) -/

/-- `PaymentEventType`. -/
inductive PaymentEventType : Type
  | payment_submitted
  | payment_confirmed
  | payment_failed
  | request_served
  | agent_connected
  | agent_disconnected
  | error
deriving DecidableEq

/-- `PaymentEvent` (`from`/`to` renamed, both are reserved words). -/
structure PaymentEvent where
  type : PaymentEventType
  timestamp : Int
  agentId : String
  txHash : Option String := none
  amount : Option String := none
  endpoint : Option String := none
  latencyMs : Option Int := none
  error : Option String := none
  fromAddr : Option String := none
  toAddr : Option String := none
deriving DecidableEq

/-- `maxLogSize = 1000`, events.ts. -/
def maxLogSize : Nat := 1000

/-- The log mutation of `EventEmitter.emit`: push, and once the log
exceeds `maxLogSize` keep only the newest `maxLogSize / 2` entries
(`this.eventLog.slice(-this.maxLogSize / 2)`). -/
def emitLog (log : List PaymentEvent) (e : PaymentEvent) : List PaymentEvent :=
  let log := log ++ [e]
  if log.length > maxLogSize then log.drop (log.length - maxLogSize / 2) else log

/-- The backlog message of `EventEmitter.addConnection`: the last 100
events (`this.eventLog.slice(-100)`) when the log is non-empty, nothing
otherwise. -/
def historySnapshot (log : List PaymentEvent) : Option (List PaymentEvent) :=
  if log.length > 0 then some (log.drop (log.length - 100)) else none

/-! ## Agent nonce sequencing (`Agent.submitPayment`, simulator/src/agent.ts) -/

/-- The operations `submitPayment` performs on the agent-local nonce
counter.  `claim` is the synchronous pair of statements
`const nonce = this.nextNonce; this.nextNonce = nonce + 1;` — there is no
`await` between them, so under the cooperative single-threaded scheduler
the pair is one atomic step even with several concurrent workers.
`resync n` is the reassignment from `getTransactionCount` after a
"nonce too high" error, `rollbackTo n` the reassignment
`this.nextNonce = nonce` after a non-nonce submission error. -/
inductive NonceOp : Type
  | claim
  | resync (n : Nat)
  | rollbackTo (n : Nat)
deriving DecidableEq

/-- Agent-local nonce state: the counter plus the history of claimed
nonces, in claim order. -/
structure NonceState where
  nextNonce : Nat
  claimed : List Nat
deriving DecidableEq

/-- One nonce operation. -/
def nonceStep (s : NonceState) : NonceOp → NonceState
  | .claim => { nextNonce := s.nextNonce + 1, claimed := s.claimed ++ [s.nextNonce] }
  | .resync n => { s with nextNonce := n }
  | .rollbackTo n => { s with nextNonce := n }

/-- A serialized interleaving of the nonce operations of all workers. -/
def runNonceOps (s : NonceState) (ops : List NonceOp) : NonceState :=
  ops.foldl nonceStep s

/-! ## Map lemmas -/

theorem mapGet_mapSet_self {α β : Type} [DecidableEq α] (m : List (α × β)) (k : α) (v : β) :
    mapGet (mapSet m k v) k = some v := by
  induction m with
  | nil => simp [mapSet, mapGet]
  | cons p rest ih =>
    obtain ⟨a, b⟩ := p
    by_cases h : a = k
    · simp [mapSet, mapGet, h]
    · simp [mapSet, mapGet, h, ih]

theorem mapGet_mapSet_ne {α β : Type} [DecidableEq α] (m : List (α × β)) (k k2 : α) (v : β)
    (h : k2 ≠ k) : mapGet (mapSet m k v) k2 = mapGet m k2 := by
  have hk : k ≠ k2 := fun hh => h hh.symm
  induction m with
  | nil => simp [mapSet, mapGet, hk]
  | cons p rest ih =>
    obtain ⟨a, b⟩ := p
    by_cases ha : a = k
    · subst ha
      simp [mapSet, mapGet, hk]
    · simp [mapSet, mapGet, ha, ih]

theorem mem_mapSet_self {α β : Type} [DecidableEq α] (m : List (α × β)) (k : α) (v : β) :
    (k, v) ∈ mapSet m k v := by
  induction m with
  | nil => simp [mapSet]
  | cons p rest ih =>
    obtain ⟨a, b⟩ := p
    by_cases h : a = k
    · simp [mapSet, h]
    · simp only [mapSet, if_neg h, List.mem_cons]
      exact Or.inr ih

theorem mem_mapSet_of_ne {α β : Type} [DecidableEq α] {m : List (α × β)} {x : α} {y : β}
    (k : α) (v : β) (hmem : (x, y) ∈ m) (hne : x ≠ k) : (x, y) ∈ mapSet m k v := by
  induction m with
  | nil => cases hmem
  | cons p rest ih =>
    obtain ⟨a, b⟩ := p
    rcases List.mem_cons.mp hmem with heq | hrest
    · injection heq with hxa hyb
      subst hxa
      subst hyb
      simp [mapSet, if_neg hne]
    · by_cases h : a = k
      · simp only [mapSet, if_pos h, List.mem_cons]
        exact Or.inr hrest
      · simp only [mapSet, if_neg h, List.mem_cons]
        exact Or.inr (ih hrest)

theorem mapHas_of_mem {α β : Type} [DecidableEq α] {m : List (α × β)} {k : α} {v : β}
    (h : (k, v) ∈ m) : mapHas m k = true := by
  induction m with
  | nil => cases h
  | cons p rest ih =>
    obtain ⟨a, b⟩ := p
    rcases List.mem_cons.mp h with heq | hrest
    · injection heq with hka hvb
      simp [mapHas, mapGet, hka.symm]
    · by_cases ha : a = k
      · simp [mapHas, mapGet, ha]
      · simpa [mapHas, mapGet, ha] using ih hrest

theorem mapHas_eq_false {α β : Type} [DecidableEq α] {m : List (α × β)} {k : α}
    (h : ∀ p ∈ m, p.1 ≠ k) : mapHas m k = false := by
  induction m with
  | nil => simp [mapHas, mapGet]
  | cons p rest ih =>
    obtain ⟨a, b⟩ := p
    have ha : a ≠ k := h (a, b) (List.mem_cons_self _ _)
    simp only [mapHas, mapGet, if_neg ha]
    exact ih fun q hq => h q (List.mem_cons_of_mem _ hq)

/-- Two entries of a key-nodup association list with the same key coincide. -/
theorem keyed_nodup_unique {α β : Type} [DecidableEq α] {m : List (α × β)}
    (hn : (m.map Prod.fst).Nodup) {k : α} {v w : β}
    (h1 : (k, v) ∈ m) (h2 : (k, w) ∈ m) : v = w := by
  induction m with
  | nil => cases h1
  | cons p rest ih =>
    obtain ⟨a, b⟩ := p
    simp only [List.map_cons, List.nodup_cons] at hn
    rcases List.mem_cons.mp h1 with he1 | hr1 <;> rcases List.mem_cons.mp h2 with he2 | hr2
    · injection he1 with h1a h1b
      injection he2 with h2a h2b
      rw [h1b, h2b]
    · injection he1 with h1a h1b
      exfalso
      apply hn.1
      rw [h1a.symm]
      exact List.mem_map.mpr ⟨(k, w), hr2, rfl⟩
    · injection he2 with h2a h2b
      exfalso
      apply hn.1
      rw [h2a.symm]
      exact List.mem_map.mpr ⟨(k, v), hr1, rfl⟩
    · exact ih hn.2 hr1 hr2

/-! ## Facilitator lemmas -/

theorem exists_mem_of_mapHas {α β : Type} [DecidableEq α] {m : List (α × β)} {k : α}
    (h : mapHas m k = true) : ∃ v, (k, v) ∈ m := by
  induction m with
  | nil => simp [mapHas, mapGet] at h
  | cons p rest ih =>
    obtain ⟨a, b⟩ := p
    by_cases ha : a = k
    · exact ⟨b, by simp [ha]⟩
    · simp only [mapHas, mapGet, if_neg ha] at h
      obtain ⟨v, hv⟩ := ih h
      exact ⟨v, List.mem_cons_of_mem _ hv⟩

theorem verify_fst (ledger : Ledger) (used : List (String × Int))
    (txHash : String) (req : Nat) (now : Int) :
    (verify ledger used txHash req now).1 = evictStale now used := rfl

theorem settle_fst (ledger : Ledger) (used : List (String × Int))
    (txHash : String) (now : Int) (network : String) :
    (settle ledger used txHash now network).1 = mapSet used txHash now := rfl

theorem insufficient_ne_alreadyUsed (x y : String) :
    ("Insufficient payment: got " ++ x ++ ", need " ++ y) ≠ "Transaction already used" := by
  intro h
  have hl := congrArg String.length h
  rw [String.length_append, String.length_append, String.length_append] at hl
  have h1 : ("Insufficient payment: got ").length = 26 := rfl
  have h2 : (", need ").length = 7 := rfl
  have h3 : ("Transaction already used").length = 24 := rfl
  rw [h1, h2, h3] at hl
  omega

/-- If the hash is not in the guard, no branch of `verify` reports
"Transaction already used". -/
theorem verifyResult_not_alreadyUsed (ledger : Ledger) (used : List (String × Int))
    (txHash : String) (req : Nat) (h : mapHas used txHash = false) :
    (verifyResult ledger used txHash req).invalidReason ≠ some "Transaction already used" := by
  by_cases h0 : txHash = ""
  · simp [verifyResult, h0]
  · simp only [verifyResult, if_neg h0, h, Bool.false_eq_true, if_false]
    cases hr : ledger.getTransactionReceipt txHash with
    | error e => simp
    | ok o =>
      cases o with
      | none => simp
      | some receipt =>
        by_cases hs : receipt.status ≠ "success"
        · simp [hs]
        · simp only [hs, if_false]
          cases ht : ledger.getTransaction txHash with
          | error e => simp
          | ok o2 =>
            cases o2 with
            | none => simp
            | some tx =>
              by_cases hlen : tx.input.length < 106
              · simp [hlen]
              · by_cases hamt : decodeTransferAmount tx.input < req
                · simp only [if_neg hlen, if_pos hamt, Option.some.injEq, ne_eq]
                  exact fun hc => insufficient_ne_alreadyUsed _ _ hc
                · simp [hlen, hamt]

/-- A hash present in the guard (and non-empty) makes `verify` report
"Transaction already used". -/
theorem verifyResult_alreadyUsed (ledger : Ledger) (used : List (String × Int))
    (txHash : String) (req : Nat) (h0 : txHash ≠ "") (h1 : mapHas used txHash = true) :
    verifyResult ledger used txHash req =
      { isValid := false, invalidReason := some "Transaction already used" } := by
  simp [verifyResult, h0, h1]

/-- `Valid` is preserved when the guard only shrinks. -/
theorem verifyResult_valid_stable (ledger : Ledger) (used1 used2 : List (String × Int))
    (txHash : String) (req : Nat)
    (hsub : ∀ p ∈ used2, p ∈ used1)
    (hv : (verifyResult ledger used1 txHash req).isValid = true) :
    (verifyResult ledger used2 txHash req).isValid = true := by
  by_cases h0 : txHash = ""
  · simp [verifyResult, h0] at hv
  · have h1 : mapHas used1 txHash = false := by
      cases hh : mapHas used1 txHash
      · rfl
      · exfalso
        simp [verifyResult, h0, hh] at hv
    have h2 : mapHas used2 txHash = false := by
      cases hh : mapHas used2 txHash
      · rfl
      · obtain ⟨v, hvmem⟩ := exists_mem_of_mapHas hh
        rw [mapHas_of_mem (hsub _ hvmem)] at h1
        cases h1
    simp only [verifyResult, if_neg h0, h1, h2, Bool.false_eq_true, if_false] at hv ⊢
    exact hv

/-- C3: `verify` never inserts into the ReplayGuard; its only mutation is
the TTL eviction (`evictStale`), so the post-state is a subset of the
pre-state, and a proof that verified `Valid` still verifies `Valid` from
the post-state at any later time and then settles with `success: true`. -/
theorem verify_frame_and_retry :
    ∀ (ledger : Ledger) (used : List (String × Int)) (txHash : String) (req : Nat) (now : Int),
    (verify ledger used txHash req now).1 = evictStale now used
    ∧ (∀ e ∈ (verify ledger used txHash req now).1, e ∈ used)
    ∧ ((verify ledger used txHash req now).2.isValid = true →
        ∀ (now2 now3 : Int) (net : String),
          (verify ledger (verify ledger used txHash req now).1 txHash req now2).2.isValid = true
          ∧ (settle ledger
              (verify ledger (verify ledger used txHash req now).1 txHash req now2).1
              txHash now3 net).2.success = true) := by
  intro ledger used txHash req now
  refine ⟨rfl, fun e he => List.mem_of_mem_filter he, fun hv now2 now3 net => ⟨?_, rfl⟩⟩
  exact verifyResult_valid_stable ledger (evictStale now used)
    (evictStale now2 (evictStale now used)) txHash req
    (fun p hp => List.mem_of_mem_filter hp) hv

/-- C3 witness: a concrete ledger and proof on which the first `verify`
is `Valid`, instantiating the retry clause. -/
theorem verify_frame_and_retry_witness :
    (verify ledgerValid [] "0xaaaa" 0 0).2.isValid = true
    ∧ (verify ledgerValid (verify ledgerValid [] "0xaaaa" 0 0).1 "0xaaaa" 0 5).2.isValid = true
    ∧ (settle ledgerValid
        (verify ledgerValid (verify ledgerValid [] "0xaaaa" 0 0).1 "0xaaaa" 0 5).1
        "0xaaaa" 9 "evolve:1337").2.success = true := by
  have h := (verify_frame_and_retry ledgerValid [] "0xaaaa" 0 0).2.2 (by decide) 5 9 "evolve:1337"
  exact ⟨by decide, h.1, h.2⟩

/-- C1 counterexample: two `settle` calls for the same `txHash`, the
second from the post-state of the first, both report `success: true` —
the code never consults the guard inside `settle`. -/
theorem settle_double_success_counterexample :
    (settle ledger0 [] "0xabc" 0 "evolve:1337").2.success = true
    ∧ (settle ledger0 (settle ledger0 [] "0xabc" 0 "evolve:1337").1
        "0xabc" 1 "evolve:1337").2.success = true :=
  ⟨rfl, rfl⟩

/-- C1 (amended): `settle` unconditionally reports `success: true` (also
when the hash is already in the guard) and marks the hash used with the
call's timestamp; at-most-one-success is not enforced by `settle` itself. -/
theorem settle_always_success :
    ∀ (ledger : Ledger) (used : List (String × Int)) (txHash : String)
      (now : Int) (network : String),
    (settle ledger used txHash now network).2.success = true
    ∧ (txHash, now) ∈ (settle ledger used txHash now network).1 :=
  fun _ used txHash now _ => ⟨rfl, mem_mapSet_self used txHash now⟩

/-- A replay-guard entry for `h` with timestamp at least `T` survives any
run of facilitator calls whose times lie between `T` and `now`, while
less than the TTL separates `now` from `T`. -/
theorem facRun_keeps_entry (ledger : Ledger) (network : String) (h : String) (T now : Int)
    (hTTL : now - T < TX_HASH_TTL_MS) :
    ∀ (mid : List FacOp) (used : List (String × Int)),
    (∀ op ∈ mid, T ≤ op.time ∧ op.time ≤ now) →
    (∃ ts, (h, ts) ∈ used ∧ T ≤ ts) →
    ∃ ts, (h, ts) ∈ mid.foldl (facStep ledger network) used ∧ T ≤ ts := by
  intro mid
  induction mid with
  | nil => intro used _ hmem; simpa using hmem
  | cons op rest ih =>
    intro used hops hmem
    obtain ⟨ts, hts, hTts⟩ := hmem
    have hop := hops op (List.mem_cons_self _ _)
    have hrest : ∀ o ∈ rest, T ≤ o.time ∧ o.time ≤ now :=
      fun o ho => hops o (List.mem_cons_of_mem _ ho)
    simp only [List.foldl_cons]
    apply ih (facStep ledger network used op) hrest
    cases op with
    | verifyOp h2 req t =>
      simp only [FacOp.time] at hop
      refine ⟨ts, ?_, hTts⟩
      show (h, ts) ∈ evictStale t used
      apply List.mem_filter.mpr
      refine ⟨hts, ?_⟩
      simp only [Bool.not_eq_true', decide_eq_false_iff_not]
      omega
    | settleOp h2 t =>
      simp only [FacOp.time] at hop
      by_cases he : h2 = h
      · subst he
        exact ⟨t, mem_mapSet_self used h2 t, hop.1⟩
      · exact ⟨ts, mem_mapSet_of_ne h2 t hts (fun hh => he hh.symm), hTts⟩

/-- C2 (amended): a non-empty `txHash` inserted by `settle` at time `T`
makes every later `verify` carrying it (after any run of facilitator
calls whose times lie between `T` and the verify time) return
`isValid: false` with reason "Transaction already used", while less than
the 1-hour TTL has elapsed. -/
theorem settled_txHash_verifies_alreadyUsed
    (ledger : Ledger) (network : String) (used : List (String × Int))
    (h : String) (T : Int) (mid : List FacOp) (req : Nat) (now : Int)
    (hne : h ≠ "")
    (hTTL : now - T < TX_HASH_TTL_MS)
    (hops : ∀ op ∈ mid, T ≤ op.time ∧ op.time ≤ now) :
    (verify ledger
      (mid.foldl (facStep ledger network) (settle ledger used h T network).1)
      h req now).2 =
      { isValid := false, invalidReason := some "Transaction already used" } := by
  obtain ⟨ts, hts, hTts⟩ := facRun_keeps_entry ledger network h T now hTTL mid
    (settle ledger used h T network).1 hops ⟨T, mem_mapSet_self used h T, le_refl T⟩
  have hmem2 : (h, ts) ∈
      evictStale now (mid.foldl (facStep ledger network) (settle ledger used h T network).1) := by
    apply List.mem_filter.mpr
    refine ⟨hts, ?_⟩
    simp only [Bool.not_eq_true', decide_eq_false_iff_not]
    omega
  exact verifyResult_alreadyUsed ledger _ h req hne (mapHas_of_mem hmem2)

/-- C2 witness: settle "0xaa" at time 0, run an unrelated verify at time
1, verify "0xaa" again at time 2 — rejected as already used. -/
theorem settled_txHash_verifies_alreadyUsed_witness :
    (verify ledger0
      (([FacOp.verifyOp "0xbb" 7 1]).foldl (facStep ledger0 "evolve:1337")
        (settle ledger0 [] "0xaa" 0 "evolve:1337").1)
      "0xaa" 7 2).2 =
      { isValid := false, invalidReason := some "Transaction already used" } :=
  settled_txHash_verifies_alreadyUsed ledger0 "evolve:1337" [] "0xaa" 0
    [FacOp.verifyOp "0xbb" 7 1] 7 2 (by decide) (by decide) (by decide)

/-- C2 counterexample: `settle` accepts the empty `txHash` (inserting it
into the guard with `success: true`), yet a verify carrying that hash one
millisecond later — well inside the TTL — reports "Missing transaction
hash", not "Transaction already used". -/
theorem settled_empty_hash_counterexample :
    (settle ledger0 [] "" 5 "evolve:1337").2.success = true
    ∧ ("", (5 : Int)) ∈ (settle ledger0 [] "" 5 "evolve:1337").1
    ∧ ((6 : Int) - 5 < TX_HASH_TTL_MS)
    ∧ (verify ledger0 (settle ledger0 [] "" 5 "evolve:1337").1 "" 7 6).2.invalidReason
        = some "Missing transaction hash"
    ∧ (verify ledger0 (settle ledger0 [] "" 5 "evolve:1337").1 "" 7 6).2
        ≠ { isValid := false, invalidReason := some "Transaction already used" } :=
  ⟨rfl, by decide, by decide, rfl, by decide⟩

/-- C6 (amended): for a non-empty `txHash` whose guard entry carries
timestamp `T`, a `verify` strictly later than `T + TTL` finds the entry
evicted and does not report "Transaction already used", while a `verify`
at `T + TTL - ε` (any `ε > 0`) reports exactly "Transaction already
used". -/
theorem ttl_eviction_boundary
    (s : List (String × Int)) (ledger : Ledger) (h : String) (T : Int) (req : Nat)
    (hne : h ≠ "") (hmem : (h, T) ∈ s) (hnodup : (s.map Prod.fst).Nodup) :
    (∀ now : Int, TX_HASH_TTL_MS < now - T →
      (∀ p ∈ (verify ledger s h req now).1, p.1 ≠ h)
      ∧ (verify ledger s h req now).2.invalidReason ≠ some "Transaction already used")
    ∧ (∀ ε : Int, 0 < ε →
      (verify ledger s h req (T + TX_HASH_TTL_MS - ε)).2 =
        { isValid := false, invalidReason := some "Transaction already used" }) := by
  constructor
  · intro now hlate
    have hkeys : ∀ p ∈ evictStale now s, p.1 ≠ h := by
      intro p hp
      obtain ⟨p1, p2⟩ := p
      intro hph
      simp only at hph
      subst hph
      have hps : (p1, p2) ∈ s := List.mem_of_mem_filter hp
      have hpT : p2 = T := keyed_nodup_unique hnodup hps hmem
      have hcond := (List.mem_filter.mp hp).2
      simp only [Bool.not_eq_true', decide_eq_false_iff_not] at hcond
      omega
    exact ⟨hkeys, verifyResult_not_alreadyUsed ledger _ h req (mapHas_eq_false hkeys)⟩
  · intro ε hε
    have hmem2 : (h, T) ∈ evictStale (T + TX_HASH_TTL_MS - ε) s := by
      apply List.mem_filter.mpr
      refine ⟨hmem, ?_⟩
      simp only [Bool.not_eq_true', decide_eq_false_iff_not]
      omega
    exact verifyResult_alreadyUsed ledger _ h req hne (mapHas_of_mem hmem2)

/-- C6 witness: the entry ("0xaa", 0) is still "already used" one
millisecond before the TTL boundary. -/
theorem ttl_eviction_boundary_witness :
    (verify ledger0 [("0xaa", (0 : Int))] "0xaa" 7 ((0 : Int) + TX_HASH_TTL_MS - 1)).2 =
      { isValid := false, invalidReason := some "Transaction already used" } :=
  (ttl_eviction_boundary [("0xaa", (0 : Int))] ledger0 "0xaa" 0 7
    (by decide) (by decide) (by decide)).2 1 (by decide)

/-- C6 counterexample: the empty `txHash`, inserted by `settle` at time
0, is reported as "Missing transaction hash" — not "Already used" — by a
verify 1 ms after insertion, i.e. at `T + TTL - ε` with `ε = TTL - 1`. -/
theorem ttl_boundary_empty_hash_counterexample :
    ("", (0 : Int)) ∈ (settle ledger0 [] "" 0 "evolve:1337").1
    ∧ ((0 : Int) < 3599999)
    ∧ ((0 : Int) + TX_HASH_TTL_MS - 3599999 = 1)
    ∧ (verify ledger0 (settle ledger0 [] "" 0 "evolve:1337").1 "" 7 1).2
        ≠ { isValid := false, invalidReason := some "Transaction already used" }
    ∧ (verify ledger0 (settle ledger0 [] "" 0 "evolve:1337").1 "" 7 1).2.invalidReason
        = some "Missing transaction hash" := by
  refine ⟨by decide, by decide, by decide, by decide, rfl⟩

/-! ## Metrics lemmas -/

theorem recordRequest_of_unknown {m : MetricsCollector} {r : RequestResult}
    (h : mapGet m.agentMetrics r.agentId = none) : recordRequest m r = m := by
  unfold recordRequest
  rw [h]

theorem recordRequest_recent (m : MetricsCollector) (r : RequestResult) :
    (recordRequest m r).recentRequests =
      if (mapGet m.agentMetrics r.agentId).isSome then m.recentRequests ++ [r.timestamp]
      else m.recentRequests := by
  unfold recordRequest
  cases hm : mapGet m.agentMetrics r.agentId with
  | none => simp
  | some am => simp

theorem recordRequest_keys (m : MetricsCollector) (r : RequestResult) (k : String) :
    (mapGet (recordRequest m r).agentMetrics k).isSome =
      (mapGet m.agentMetrics k).isSome := by
  unfold recordRequest
  cases hm : mapGet m.agentMetrics r.agentId with
  | none => rfl
  | some am =>
    simp only
    by_cases hk : k = r.agentId
    · subst hk
      rw [mapGet_mapSet_self, hm]
      rfl
    · rw [mapGet_mapSet_ne _ _ _ _ hk]

theorem foldl_recordRequest_recent (rs : List RequestResult) :
    ∀ m : MetricsCollector,
    (rs.foldl recordRequest m).recentRequests =
      m.recentRequests ++
        ((rs.filter fun r => (mapGet m.agentMetrics r.agentId).isSome).map
          fun r => r.timestamp) := by
  induction rs with
  | nil => intro m; simp
  | cons r rs ih =>
    intro m
    simp only [List.foldl_cons, List.filter_cons]
    rw [ih (recordRequest m r)]
    rw [List.filter_congr fun x _ => recordRequest_keys m r x.agentId]
    rw [recordRequest_recent]
    cases hm : (mapGet m.agentMetrics r.agentId).isSome with
    | false => simp
    | true => simp

/-- C10: a `RequestResult` whose `agentId` was never registered leaves the
whole collector state unchanged — no counters, latency samples or TPS
timestamps are added, so every aggregate figure excludes it. -/
theorem recordRequest_unknown_agent_noop :
    ∀ (m : MetricsCollector) (r : RequestResult),
    mapGet m.agentMetrics r.agentId = none → recordRequest m r = m := by
  intro m r h
  unfold recordRequest
  rw [h]

/-- C10 witness: a result from the unregistered agent "ghost" leaves the
empty collector untouched. -/
theorem recordRequest_unknown_agent_noop_witness :
    recordRequest emptyCollector
      { success := true, agentId := "ghost", endpoint := "POST /api/echo",
        latencyMs := 5, timestamp := 99 } = emptyCollector :=
  recordRequest_unknown_agent_noop emptyCollector
    { success := true, agentId := "ghost", endpoint := "POST /api/echo",
      latencyMs := 5, timestamp := 99 } rfl

/-- C4 counterexample: a failed request from a registered agent whose
timestamp lies in the trailing window makes `currentTps = 1` even though
there are zero successful requests. -/
theorem currentTps_failure_counterexample :
    ((getPoolMetrics
        (recordRequest (registerAgent emptyCollector "agent-1" "0x01")
          { success := false, agentId := "agent-1", endpoint := "POST /api/echo",
            latencyMs := 5, timestamp := 1000 })
        1000).2.currentTps = 1)
    ∧ ((getPoolMetrics
        (recordRequest (registerAgent emptyCollector "agent-1" "0x01")
          { success := false, agentId := "agent-1", endpoint := "POST /api/echo",
            latencyMs := 5, timestamp := 1000 })
        1000).2.successfulRequests = 0) := by
  constructor
  · rfl
  · rfl

/-- C4 (amended): starting from a freshly started collector,
`currentTps` equals the number of all recorded requests — successful or
failed — from registered agents whose timestamp `t` satisfies
`t > now - 1000`. -/
theorem currentTps_counts_window_requests
    (m : MetricsCollector) (rs : List RequestResult) (now : Int)
    (hfresh : m.recentRequests = []) :
    (getPoolMetrics (rs.foldl recordRequest m) now).2.currentTps =
      (rs.filter fun r =>
        decide (now - TPS_WINDOW_MS < r.timestamp)
          && (mapGet m.agentMetrics r.agentId).isSome).length := by
  have hrec := foldl_recordRequest_recent rs m
  rw [hfresh, List.nil_append] at hrec
  show (((rs.foldl recordRequest m).recentRequests.filter
      fun t => decide (now - TPS_WINDOW_MS < t)).length) = _
  rw [hrec, List.filter_map, List.filter_filter, List.length_map]
  rfl

/-- C4 witness: one failed in-window request from a registered agent
yields `currentTps = 1` via the amended characterisation. -/
theorem currentTps_counts_window_requests_witness :
    (getPoolMetrics
      (List.foldl recordRequest (registerAgent emptyCollector "agent-1" "0x01")
        [{ success := false, agentId := "agent-1", endpoint := "POST /api/echo",
           latencyMs := 5, timestamp := 1000 }])
      1000).2.currentTps = 1 :=
  (currentTps_counts_window_requests (registerAgent emptyCollector "agent-1" "0x01")
    [{ success := false, agentId := "agent-1", endpoint := "POST /api/echo",
       latencyMs := 5, timestamp := 1000 }] 1000 rfl).trans (by decide)

/-- C5 counterexample: over the spec's own sample set
`[10, 20, 30, 40, 50, 100, 200]` the code computes p50 as
`sorted[ceil(0.5 * 7) - 1] = sorted[3] = 40` — the 4th ascending value —
not 30 as the claim (and the spec sentence) states. -/
theorem percentile_p50_counterexample :
    percentile [10, 20, 30, 40, 50, 100, 200] 50 = 40 ∧ (40 : Int) ≠ 30 := by
  exact ⟨rfl, by decide⟩

/-- C5 (amended): for a non-empty sorted sample list and `p ≤ 100`, the
reported percentile is the nearest-rank element `s[ceil(p/100 * n) - 1]`
with the index clamped to `[0, n-1]` (the code clamps only from below;
the upper clamp is vacuous for `p ≤ 100`); on the sample set
`[10, 20, 30, 40, 50, 100, 200]` this gives p50 = 40 and p95 = 200. -/
theorem percentile_nearest_rank (s : List Int) (p : Nat) (hs : s ≠ []) (hp : p ≤ 100) :
    percentile s p =
      s.getD (min (s.length - 1)
        (max 0 (((p * s.length + 99) / 100 : Nat) - 1 : Int)).toNat) 0 := by
  have hlen : s.length ≠ 0 := fun h => hs (List.eq_nil_of_length_eq_zero h)
  have hceil : (p * s.length + 99) / 100 ≤ s.length := by
    have h1 : p * s.length ≤ 100 * s.length := Nat.mul_le_mul_right _ hp
    have h2 : (p * s.length + 99) / 100 ≤ (100 * s.length + 99) / 100 :=
      Nat.div_le_div_right (by omega)
    have h3 : (100 * s.length + 99) / 100 = s.length := by omega
    omega
  have hidx : (max 0 (((p * s.length + 99) / 100 : Nat) - 1 : Int)).toNat ≤ s.length - 1 := by
    omega
  unfold percentile
  rw [if_neg hlen, min_eq_right hidx]

/-- C5 witness: the spec's fixed sample set, p50 = 40 and p95 = 200. -/
theorem percentile_nearest_rank_witness :
    percentile [10, 20, 30, 40, 50, 100, 200] 50 = 40
    ∧ percentile [10, 20, 30, 40, 50, 100, 200] 95 = 200 :=
  ⟨(percentile_nearest_rank [10, 20, 30, 40, 50, 100, 200] 50 (by decide) (by decide)).trans
      (by decide),
    (percentile_nearest_rank [10, 20, 30, 40, 50, 100, 200] 95 (by decide) (by decide)).trans
      (by decide)⟩

/-! ## Event bus theorems -/

/-- C7: after every `emit` the log holds at most `maxLogSize = 1000`
entries; when an append makes it exceed 1000 the log is trimmed in one
batch to exactly the newest 500 (half the maximum), and the result is
always a suffix of the appended log — oldest entries dropped, relative
order preserved. -/
theorem emitLog_bounded (log : List PaymentEvent) (e : PaymentEvent)
    (hb : log.length ≤ maxLogSize) :
    (emitLog log e).length ≤ maxLogSize
    ∧ (log.length + 1 > maxLogSize →
        emitLog log e = (log ++ [e]).drop (log.length + 1 - maxLogSize / 2)
        ∧ (emitLog log e).length = maxLogSize / 2)
    ∧ (log.length + 1 ≤ maxLogSize → emitLog log e = log ++ [e])
    ∧ List.IsSuffix (emitLog log e) (log ++ [e]) := by
  have hlen : (log ++ [e]).length = log.length + 1 := by simp
  by_cases hc : log.length + 1 > maxLogSize
  · have heq : emitLog log e = (log ++ [e]).drop (log.length + 1 - maxLogSize / 2) := by
      unfold emitLog
      rw [if_pos (by rw [hlen]; exact hc), hlen]
    have hmax : maxLogSize = 1000 := rfl
    have h1000 : log.length = 1000 := by omega
    have hl : (emitLog log e).length = maxLogSize / 2 := by
      rw [heq, List.length_drop, hlen, h1000]
      rfl
    refine ⟨?_, fun _ => ⟨heq, hl⟩, fun hle => absurd hle (by omega), ?_⟩
    · rw [hl]
      decide
    · rw [heq]
      exact List.drop_suffix _ _
  · have heq : emitLog log e = log ++ [e] := by
      unfold emitLog
      rw [if_neg (by rw [hlen]; omega)]
    refine ⟨?_, fun hgt => absurd hgt hc, fun _ => heq, ?_⟩
    · rw [heq, hlen]
      omega
    · rw [heq]

/-- C7 witness: emitting into the empty log appends without trimming. -/
theorem emitLog_bounded_witness :
    (emitLog [] { type := PaymentEventType.payment_confirmed, timestamp := 0, agentId := "a" }).length ≤ maxLogSize
    ∧ emitLog [] { type := PaymentEventType.payment_confirmed, timestamp := 0, agentId := "a" }
      = [] ++ [{ type := PaymentEventType.payment_confirmed, timestamp := 0, agentId := "a" }] := by
  have h := emitLog_bounded []
    { type := PaymentEventType.payment_confirmed, timestamp := 0, agentId := "a" }
    (by decide)
  exact ⟨h.1, h.2.2.1 (by decide)⟩

/-- C9: the backlog snapshot sent to a new connection is absent for an
empty log, and otherwise is the last 100 events — at most 100 entries and
always a suffix of the retained log. -/
theorem historySnapshot_bounded :
    ∀ log : List PaymentEvent,
    (log = [] → historySnapshot log = none)
    ∧ (log ≠ [] → historySnapshot log = some (log.drop (log.length - 100)))
    ∧ (∀ msg, historySnapshot log = some msg →
        msg.length ≤ 100 ∧ List.IsSuffix msg log) := by
  intro log
  refine ⟨?_, ?_, ?_⟩
  · intro h
    subst h
    rfl
  · intro h
    unfold historySnapshot
    rw [if_pos (List.length_pos.mpr h)]
  · intro msg hmsg
    unfold historySnapshot at hmsg
    by_cases h : log.length > 0
    · rw [if_pos h] at hmsg
      injection hmsg with hmsg
      subst hmsg
      constructor
      · rw [List.length_drop]
        omega
      · exact List.drop_suffix _ _
    · rw [if_neg h] at hmsg
      cases hmsg

/-- C9 witness: a one-event log yields exactly that event as backlog. -/
theorem historySnapshot_bounded_witness :
    historySnapshot [{ type := PaymentEventType.request_served, timestamp := 3, agentId := "a" }]
      = some [{ type := PaymentEventType.request_served, timestamp := 3, agentId := "a" }] :=
  ((historySnapshot_bounded
      [{ type := PaymentEventType.request_served, timestamp := 3, agentId := "a" }]).2.1
    (by decide)).trans (by decide)

/-! ## Nonce sequencing theorems -/

theorem runNonceOps_all_claims (ops : List NonceOp)
    (hall : ∀ op ∈ ops, op = NonceOp.claim) :
    ∀ (n : Nat) (acc : List Nat),
    runNonceOps ⟨n, acc⟩ ops = ⟨n + ops.length, acc ++ List.range' n ops.length⟩ := by
  induction ops with
  | nil =>
    intro n acc
    simp [runNonceOps]
  | cons op rest ih =>
    intro n acc
    have hop : op = NonceOp.claim := hall op (List.mem_cons_self _ _)
    subst hop
    have hrest : ∀ o ∈ rest, o = NonceOp.claim :=
      fun o ho => hall o (List.mem_cons_of_mem _ ho)
    show runNonceOps (nonceStep ⟨n, acc⟩ NonceOp.claim) rest = _
    rw [show nonceStep ⟨n, acc⟩ NonceOp.claim = ⟨n + 1, acc ++ [n]⟩ from rfl]
    rw [ih hrest (n + 1) (acc ++ [n])]
    have h1 : n + 1 + rest.length = n + (NonceOp.claim :: rest).length := by
      simp
      omega
    have h2 : (acc ++ [n]) ++ List.range' (n + 1) rest.length =
        acc ++ List.range' n (NonceOp.claim :: rest).length := by
      rw [List.append_assoc, List.singleton_append, List.length_cons,
        List.range'_succ n rest.length 1]
    rw [h1, h2]

/-- C8: any serialized interleaving of `M` worker nonce claims (the
claim-and-increment pair is one atomic step, the source has no `await`
between reading and incrementing `nextNonce`) yields claimed values that
are exactly the contiguous range starting at the initial counter —
pairwise distinct — and leaves the counter at `start + M`; this holds
absent any `resync`/`rollbackTo` operation. -/
theorem nonce_claims_distinct_contiguous
    (n0 : Nat) (ops : List NonceOp) (hall : ∀ op ∈ ops, op = NonceOp.claim) :
    (runNonceOps ⟨n0, []⟩ ops).claimed = List.range' n0 ops.length
    ∧ (runNonceOps ⟨n0, []⟩ ops).claimed.Nodup
    ∧ (runNonceOps ⟨n0, []⟩ ops).nextNonce = n0 + ops.length := by
  rw [runNonceOps_all_claims ops hall n0 []]
  refine ⟨by simp, ?_, rfl⟩
  simp only [List.nil_append]
  exact List.nodup_range' n0 ops.length

/-- C8 witness: three claims starting at 7 give [7, 8, 9]. -/
theorem nonce_claims_distinct_contiguous_witness :
    (runNonceOps ⟨7, []⟩ [NonceOp.claim, NonceOp.claim, NonceOp.claim]).claimed =
        List.range' 7 3
    ∧ (runNonceOps ⟨7, []⟩ [NonceOp.claim, NonceOp.claim, NonceOp.claim]).claimed.Nodup
    ∧ (runNonceOps ⟨7, []⟩ [NonceOp.claim, NonceOp.claim, NonceOp.claim]).nextNonce = 7 + 3 :=
  nonce_claims_distinct_contiguous 7 [NonceOp.claim, NonceOp.claim, NonceOp.claim] (by decide)
